import Mathlib

/-
Verification of the timeline-aggregation engine of ssl-metrics-github-issues
(src/ssl_metrics_github_issues/create_graph.py).

The Python code stores issue lifetimes as half-open integer intervals in an
IntervalTree (third-party intervaltree library) and sweeps day by day to
produce open / closed / spoiled series.  The embedding below models:
  - the raw issue record (a JSON dict with created_at_day, closed_at_day,
    state; the code adds an endDayOffset key in place, modelled here as an
    Option field that is none on load),
  - the tree as the list of inserted intervals, with the intervaltree
    library operations addi / at / overlap / begin / end translated from
    their documented semantics (addi raises ValueError on begin >= end;
    at(p) returns intervals with begin <= p < end; overlap(b, e) returns
    intervals with begin < e and end > b, empty when b >= e; begin() / end()
    return the minimum begin / maximum end, 0 on an empty tree),
  - createIntervalTree (create_graph.py lines 100-119),
  - issue_spoilage_data (lines 122-162),
  - fillDictBasedOnKeyValue (lines 283-308), and
  - the series-producing part of main (lines 311-340).
Python dicts are modelled as association lists; the tree set is modelled as
the insertion list (exact duplicate intervals would be merged by the Python
set, pairwise distinct records behave identically).
-/

/-- Raw issue record as loaded from JSON.  The endDayOffset field is absent
(none) on load; createIntervalTree assigns it in place. -/
structure IssueRecord where
  created_at_day : Int
  closed_at_day : Int
  state : String
  endDayOffset : Option Int := none
deriving DecidableEq, Repr

/-- One interval stored in the IntervalTree: bounds plus the data dict, which
in the Python code is the (mutated) issue record itself. -/
structure TreeInterval where
  ivBegin : Int
  ivEnd : Int
  data : IssueRecord
deriving DecidableEq, Repr

/-- One element of the list returned by issue_spoilage_data.  The intervals
key is always the empty list: the code never appends to list_of_intervals
(the append is commented out in the source). -/
structure SpoilEntry where
  day : Int
  number_open : Nat
  intervals : List Int
deriving DecidableEq, Repr

/-- Processing of one record by the loop body of createIntervalTree
(create_graph.py lines 105-117).  The code sets endDayOffset to 0 and calls
tree.addi(begin, end); addi raises ValueError when begin >= end, in which
case the handler sets endDayOffset to 1 and calls tree.addi(begin, end + 1).
That second call raises ValueError again (uncaught) when begin >= end + 1,
which aborts the whole run. -/
def processRecord (issue : IssueRecord) : Except String TreeInterval :=
  let b := issue.created_at_day
  let e := issue.closed_at_day
  if b < e then
    Except.ok { ivBegin := b, ivEnd := e, data := { issue with endDayOffset := some 0 } }
  else if b < e + 1 then
    Except.ok { ivBegin := b, ivEnd := e + 1, data := { issue with endDayOffset := some 1 } }
  else
    Except.error "ValueError"

/-- createIntervalTree (create_graph.py lines 100-119): inserts every record
in order; an uncaught ValueError from the widened insert aborts construction
for the whole input. -/
def createIntervalTree : List IssueRecord → Except String (List TreeInterval)
  | [] => Except.ok []
  | issue :: rest =>
    match processRecord issue with
    | Except.error e => Except.error e
    | Except.ok iv =>
      match createIntervalTree rest with
      | Except.error e => Except.error e
      | Except.ok tree => Except.ok (iv :: tree)

/-- Membership test of intervaltree point query at(p): begin <= p < end. -/
def containsPoint (iv : TreeInterval) (p : Int) : Bool :=
  decide (iv.ivBegin ≤ p) && decide (p < iv.ivEnd)

/-- intervaltree point query tree.at(p). -/
def treeAt (tree : List TreeInterval) (p : Int) : List TreeInterval :=
  tree.filter (fun iv => containsPoint iv p)

/-- Overlap test of intervaltree range query: begin < e and end > b. -/
def overlapsRange (iv : TreeInterval) (b e : Int) : Bool :=
  decide (iv.ivBegin < e) && decide (b < iv.ivEnd)

/-- intervaltree range query tree.overlap(b, e); the library returns the
empty set when b >= e. -/
def treeOverlap (tree : List TreeInterval) (b e : Int) : List TreeInterval :=
  if b ≥ e then [] else tree.filter (fun iv => overlapsRange iv b e)

/-- intervaltree tree.begin(): minimum begin over all intervals, 0 when the
tree is empty. -/
def treeBegin : List TreeInterval → Int
  | [] => 0
  | iv :: rest => rest.foldl (fun a x => min a x.ivBegin) iv.ivBegin

/-- intervaltree tree.end(): maximum end over all intervals, 0 when the tree
is empty. -/
def treeEnd : List TreeInterval → Int
  | [] => 0
  | iv :: rest => rest.foldl (fun a x => max a x.ivEnd) iv.ivEnd

/-- Filter applied by issue_spoilage_data to each overlap result
(create_graph.py lines 136 and 152):
issue.begin != issue.end - 1 and issue.data["endDayOffset"] != 1. -/
def spoilFilter (iv : TreeInterval) : Bool :=
  decide (iv.ivBegin ≠ iv.ivEnd - 1) && decide (iv.data.endDayOffset ≠ some 1)

/-- Bounds of the overlap query issued by iteration i of the day walk in
issue_spoilage_data: overlap(0, 1) when i == 1, otherwise
overlap(i - 1, i) (create_graph.py lines 130-131 and 147). -/
def spoilageQuery (i : Int) : Int × Int :=
  if i = 1 then (0, 1) else (i - 1, i)

/-- The sequence of overlap query bounds issued by the day walk of
issue_spoilage_data over the range range(tree.end()). -/
def spoilageQueries (data : List TreeInterval) : List (Int × Int) :=
  (List.range (treeEnd data).toNat).map (fun n : Nat => spoilageQuery (n : Int))

/-- issue_spoilage_data (create_graph.py lines 122-162): for i in
range(tree.end()), query overlap(0, 1) when i == 1 and overlap(i - 1, i)
otherwise, keep intervals passing spoilFilter, and emit a record with
day = i + 1 and number_open = the number kept.  list_of_intervals is never
appended to, so the intervals key is always the empty list. -/
def issue_spoilage_data (data : List TreeInterval) : List SpoilEntry :=
  let endDay : Int := treeEnd data
  (List.range endDay.toNat).map (fun n : Nat =>
    let i : Int := (n : Int)
    if i = 1 then
      { day := i + 1,
        number_open := ((treeOverlap data 0 1).filter spoilFilter).length,
        intervals := [] }
    else
      { day := i + 1,
        number_open := ((treeOverlap data (i - 1) i).filter spoilFilter).length,
        intervals := [] })

/-- Lookup of the number_open value of the entry with the given day key in a
spoilage list (convenience accessor for stating facts about the output). -/
def spoilAt : List SpoilEntry → Int → Option Nat
  | [], _ => none
  | e :: rest, d => if e.day = d then some e.number_open else spoilAt rest d

/-- Python dict lookup on an association list model of an int-keyed dict. -/
def lookupD : List (Int × Nat) → Int → Option Nat
  | [], _ => none
  | p :: rest, k => if p.1 = k then some p.2 else lookupD rest k

/-- Python max over a nonempty list of ints (the model returns 0 on an empty
list; the pipeline only applies it to nonempty key lists). -/
def listMax : List Int → Int
  | [] => 0
  | x :: xs => xs.foldl max x

/-- Python min over a nonempty list of ints (same remark as listMax). -/
def listMin : List Int → Int
  | [] => 0
  | x :: xs => xs.foldl min x

/-- Python range(lo, hi) over ints. -/
def intRange (lo hi : Int) : List Int :=
  (List.range (hi - lo).toNat).map (fun k : Nat => lo + (k : Int))

/-- Test interval.data[key] == value for key = "state", the only key used at
the two call sites of fillDictBasedOnKeyValue (create_graph.py lines
330-336). -/
def stateIs (value : String) (iv : TreeInterval) : Bool :=
  iv.data.state = value

/-- The count computed by the KeyError fallback of fillDictBasedOnKeyValue
(create_graph.py lines 299-304): the number of intervals at day x whose data
state equals value. -/
def stateCountAt (tree : List TreeInterval) (value : String) (x : Int) : Nat :=
  ((treeAt tree x).filter (stateIs value)).length

/-- Value stored for day x by fillDictBasedOnKeyValue: the seed dictionary
value when the key is present, else the per-state count at x
(create_graph.py lines 296-304). -/
def fillValue (dictionary : List (Int × Nat)) (tree : List TreeInterval)
    (value : String) (x : Int) : Nat :=
  match lookupD dictionary x with
  | some v => v
  | none => stateCountAt tree value x

/-- fillDictBasedOnKeyValue (create_graph.py lines 283-308): iterates x over
range(min(keys), max(keys)) of the seed dictionary and stores fillValue for
each x.  Note that range excludes max(keys). -/
def fillDictBasedOnKeyValue (dictionary : List (Int × Nat))
    (tree : List TreeInterval) (value : String) : List (Int × Nat) :=
  (intRange (listMin (dictionary.map Prod.fst)) (listMax (dictionary.map Prod.fst))).map
    (fun x => (x, fillValue dictionary tree value x))

/-- The day keys of a produced series. -/
def seriesDays (s : List (Int × Nat)) : List Int :=
  s.map Prod.fst

/-- The seed dictionary built by main (create_graph.py lines 322-328) after
the boundary adjustment: since no interval contains the point tree.end()
under half-open semantics, the adjusted endDay always equals
tree.end() - 1. -/
def baseDictOf (tree : List TreeInterval) : List (Int × Nat) :=
  [(treeBegin tree, (treeAt tree (treeBegin tree)).length),
   (treeEnd tree - 1, (treeAt tree (treeEnd tree - 1)).length)]

/-- The series-producing part of main (create_graph.py lines 320-340) on an
already built tree: boundary adjustment of endDay, the two-entry seed dict,
the open and closed series, and the spoilage list. -/
def mainFromTree (tree : List TreeInterval) :
    (List (Int × Nat)) × (List (Int × Nat)) × (List SpoilEntry) :=
  let startDay : Int := treeBegin tree
  let endDay0 : Int := treeEnd tree
  let endDay : Int := if (treeAt tree endDay0).length = 0 then endDay0 - 1 else endDay0
  let baseDict : List (Int × Nat) :=
    [(startDay, (treeAt tree startDay).length), (endDay, (treeAt tree endDay).length)]
  (fillDictBasedOnKeyValue baseDict tree "open",
   fillDictBasedOnKeyValue baseDict tree "closed",
   issue_spoilage_data tree)

/-- The aggregation run of main on a record list: tree construction followed
by series production.  An uncaught ValueError from construction aborts the
run. -/
def mainSeries (records : List IssueRecord) :
    Except String ((List (Int × Nat)) × (List (Int × Nat)) × (List SpoilEntry)) :=
  match createIntervalTree records with
  | Except.error e => Except.error e
  | Except.ok tree => Except.ok (mainFromTree tree)

/-- Tree produced from a record list, empty on construction failure
(convenience accessor for concrete statements). -/
def treeOf (records : List IssueRecord) : List TreeInterval :=
  match createIntervalTree records with
  | Except.ok t => t
  | Except.error _ => []

/-- Open series of a run, empty on failure (convenience accessor). -/
def mainOpen (records : List IssueRecord) : List (Int × Nat) :=
  match mainSeries records with
  | Except.ok r => r.1
  | Except.error _ => []

/-- Closed series of a run, empty on failure (convenience accessor). -/
def mainClosed (records : List IssueRecord) : List (Int × Nat) :=
  match mainSeries records with
  | Except.ok r => r.2.1
  | Except.error _ => []

/-- Spoilage list of a run, empty on failure (convenience accessor). -/
def mainSpoilage (records : List IssueRecord) : List SpoilEntry :=
  match mainSeries records with
  | Except.ok r => r.2.2
  | Except.error _ => []

/-- Example input: a single open issue spanning days 0 to 5. -/
def exOne : List IssueRecord :=
  [{ created_at_day := 0, closed_at_day := 5, state := "open" }]

/-- Example input: a closed issue spanning days 0 to 2 and an open issue
spanning days 0 to 5. -/
def exTwo : List IssueRecord :=
  [{ created_at_day := 0, closed_at_day := 2, state := "closed" },
   { created_at_day := 0, closed_at_day := 5, state := "open" }]

/-- Example input: a single open issue spanning days 0 to 2. -/
def exShort : List IssueRecord :=
  [{ created_at_day := 0, closed_at_day := 2, state := "open" }]

/-- Example input: a same-day create and close record. -/
def exSameDay : List IssueRecord :=
  [{ created_at_day := 0, closed_at_day := 0, state := "closed" }]

/-- Example input: a record closed strictly before it was created. -/
def exReversed : List IssueRecord :=
  [{ created_at_day := 5, closed_at_day := 3, state := "closed" }]

/-- Example input: a reversed record followed by a valid record. -/
def exReversedThenGood : List IssueRecord :=
  [{ created_at_day := 5, closed_at_day := 3, state := "closed" },
   { created_at_day := 0, closed_at_day := 2, state := "open" }]

/-- Any interval accepted by processRecord has strictly positive width. -/
theorem processRecord_wf {issue : IssueRecord} {iv : TreeInterval}
    (h : processRecord issue = Except.ok iv) : iv.ivBegin < iv.ivEnd := by
  simp only [processRecord] at h
  split at h
  next hb =>
    cases h
    simpa using hb
  next hb =>
    split at h
    next hb2 =>
      cases h
      simp only []
      omega
    next => cases h

/-- processRecord only fails with the ValueError message. -/
theorem processRecord_error_msg {issue : IssueRecord} {e : String}
    (h : processRecord issue = Except.error e) : e = "ValueError" := by
  simp only [processRecord] at h
  split at h
  · cases h
  · split at h
    · cases h
    · cases h
      rfl

/-- A record closed strictly before its creation makes both insertion
attempts fail. -/
theorem processRecord_reversed {issue : IssueRecord}
    (h : issue.closed_at_day < issue.created_at_day) :
    processRecord issue = Except.error "ValueError" := by
  simp only [processRecord]
  rw [if_neg (by omega), if_neg (by omega)]

/-- Every interval in a successfully constructed tree has positive width. -/
theorem createIntervalTree_wf :
    ∀ (records : List IssueRecord) (t : List TreeInterval),
      createIntervalTree records = Except.ok t → ∀ iv ∈ t, iv.ivBegin < iv.ivEnd := by
  intro records
  induction records with
  | nil =>
    intro t h iv hiv
    cases h
    cases hiv
  | cons r rest ih =>
    intro t h iv hiv
    unfold createIntervalTree at h
    cases hp : processRecord r with
    | error e => rw [hp] at h; cases h
    | ok iv0 =>
      rw [hp] at h
      cases hc : createIntervalTree rest with
      | error e => rw [hc] at h; cases h
      | ok t0 =>
        rw [hc] at h
        cases h
        rcases List.mem_cons.1 hiv with h1 | h1
        · subst h1
          exact processRecord_wf hp
        · exact ih t0 hc iv h1

/-- In a successful construction every input record was accepted by
processRecord. -/
theorem createIntervalTree_ok_record :
    ∀ (records : List IssueRecord) (t : List TreeInterval),
      createIntervalTree records = Except.ok t →
      ∀ r ∈ records, ∃ iv, processRecord r = Except.ok iv := by
  intro records
  induction records with
  | nil =>
    intro t h r hr
    cases hr
  | cons q rest ih =>
    intro t h r hr
    unfold createIntervalTree at h
    cases hp : processRecord q with
    | error e => rw [hp] at h; cases h
    | ok iv0 =>
      rw [hp] at h
      cases hc : createIntervalTree rest with
      | error e => rw [hc] at h; cases h
      | ok t0 =>
        rcases List.mem_cons.1 hr with h1 | h1
        · subst h1
          exact ⟨iv0, hp⟩
        · exact ih t0 hc r h1

/-- Tree construction either succeeds or fails with the ValueError
message. -/
theorem createIntervalTree_error_msg :
    ∀ records : List IssueRecord,
      (∃ t, createIntervalTree records = Except.ok t) ∨
      createIntervalTree records = Except.error "ValueError" := by
  intro records
  induction records with
  | nil => exact Or.inl ⟨[], rfl⟩
  | cons r rest ih =>
    unfold createIntervalTree
    cases hp : processRecord r with
    | error e =>
      have he := processRecord_error_msg hp
      subst he
      exact Or.inr rfl
    | ok iv =>
      rcases ih with ⟨t, ht⟩ | ht
      · rw [ht]
        exact Or.inl ⟨iv :: t, rfl⟩
      · rw [ht]
        exact Or.inr rfl

/-- Folding min over begins never increases the accumulator. -/
theorem foldl_min_le_init (l : List TreeInterval) :
    ∀ a : Int, l.foldl (fun x b => min x b.ivBegin) a ≤ a := by
  induction l with
  | nil => intro a; simp
  | cons b l ih =>
    intro a
    simp only [List.foldl_cons]
    exact le_trans (ih (min a b.ivBegin)) (min_le_left _ _)

/-- Folding max over ends never decreases the accumulator. -/
theorem le_foldl_max_init (l : List TreeInterval) :
    ∀ a : Int, a ≤ l.foldl (fun x b => max x b.ivEnd) a := by
  induction l with
  | nil => intro a; simp
  | cons b l ih =>
    intro a
    simp only [List.foldl_cons]
    exact le_trans (le_max_left _ _) (ih (max a b.ivEnd))

/-- The min fold is below the begin of every list member. -/
theorem foldl_min_le_mem {iv : TreeInterval} {l : List TreeInterval} (h : iv ∈ l) :
    ∀ a : Int, l.foldl (fun x b => min x b.ivBegin) a ≤ iv.ivBegin := by
  induction l with
  | nil => cases h
  | cons b l ih =>
    intro a
    simp only [List.foldl_cons]
    rcases List.mem_cons.1 h with h1 | h1
    · subst h1
      exact le_trans (foldl_min_le_init l _) (min_le_right _ _)
    · exact ih h1 _

/-- The max fold is above the end of every list member. -/
theorem le_foldl_max_mem {iv : TreeInterval} {l : List TreeInterval} (h : iv ∈ l) :
    ∀ a : Int, iv.ivEnd ≤ l.foldl (fun x b => max x b.ivEnd) a := by
  induction l with
  | nil => cases h
  | cons b l ih =>
    intro a
    simp only [List.foldl_cons]
    rcases List.mem_cons.1 h with h1 | h1
    · subst h1
      exact le_trans (le_max_right _ _) (le_foldl_max_init l _)
    · exact ih h1 _

/-- tree.begin() is below the begin of every stored interval. -/
theorem treeBegin_le_mem {t : List TreeInterval} {iv : TreeInterval} (h : iv ∈ t) :
    treeBegin t ≤ iv.ivBegin := by
  cases t with
  | nil => cases h
  | cons b l =>
    unfold treeBegin
    rcases List.mem_cons.1 h with h1 | h1
    · subst h1
      exact foldl_min_le_init l _
    · exact foldl_min_le_mem h1 _

/-- tree.end() is above the end of every stored interval. -/
theorem mem_le_treeEnd {t : List TreeInterval} {iv : TreeInterval} (h : iv ∈ t) :
    iv.ivEnd ≤ treeEnd t := by
  cases t with
  | nil => cases h
  | cons b l =>
    unfold treeEnd
    rcases List.mem_cons.1 h with h1 | h1
    · subst h1
      exact le_foldl_max_init l _
    · exact le_foldl_max_mem h1 _

/-- On a nonempty tree of positive-width intervals the global begin is
strictly below the global end. -/
theorem treeBegin_lt_treeEnd {t : List TreeInterval} (h2 : t ≠ [])
    (hwf : ∀ iv ∈ t, iv.ivBegin < iv.ivEnd) : treeBegin t < treeEnd t := by
  cases t with
  | nil => exact absurd rfl h2
  | cons b l =>
    have h1 : treeBegin (b :: l) ≤ b.ivBegin := treeBegin_le_mem (List.mem_cons_self _ _)
    have h3 : b.ivEnd ≤ treeEnd (b :: l) := mem_le_treeEnd (List.mem_cons_self _ _)
    have h4 := hwf b (List.mem_cons_self _ _)
    omega

/-- The global begin is at most the global end on every tree of
positive-width intervals, the empty tree included. -/
theorem treeBegin_le_treeEnd {t : List TreeInterval}
    (hwf : ∀ iv ∈ t, iv.ivBegin < iv.ivEnd) : treeBegin t ≤ treeEnd t := by
  cases ht : t with
  | nil => simp [treeBegin, treeEnd]
  | cons b l =>
    subst ht
    exact le_of_lt (treeBegin_lt_treeEnd (by simp) hwf)

/-- Under half-open semantics no stored interval contains the point
tree.end(), so the point query there is always empty. -/
theorem treeAt_treeEnd_nil (t : List TreeInterval) : treeAt t (treeEnd t) = [] := by
  unfold treeAt
  rw [List.filter_eq_nil_iff]
  intro iv hiv
  have hle := mem_le_treeEnd hiv
  simp [containsPoint]
  omega

/-- Membership in the model of range(lo, hi). -/
theorem mem_intRange {lo hi d : Int} : d ∈ intRange lo hi ↔ lo ≤ d ∧ d < hi := by
  unfold intRange
  constructor
  · intro hd
    obtain ⟨k, hk, he⟩ := List.mem_map.1 hd
    rw [List.mem_range] at hk
    subst he
    rcases le_or_lt hi lo with hc | hc
    · rw [Int.toNat_of_nonpos (by omega)] at hk
      exact absurd hk (Nat.not_lt_zero k)
    · have e2 := Int.toNat_of_nonneg (show (0 : Int) ≤ hi - lo by omega)
      have hk2 : (k : Int) < ((hi - lo).toNat : Int) := by exact_mod_cast hk
      rw [e2] at hk2
      omega
  · intro h
    have e1 := Int.toNat_of_nonneg (show (0 : Int) ≤ d - lo by omega)
    have e2 := Int.toNat_of_nonneg (show (0 : Int) ≤ hi - lo by omega)
    refine List.mem_map.2 ⟨(d - lo).toNat, List.mem_range.2 ?_, ?_⟩
    · have h3 : (((d - lo).toNat : Int)) < (((hi - lo).toNat : Int)) := by
        rw [e1, e2]
        omega
      exact_mod_cast h3
    · rw [e1]
      omega

/-- Dict lookup on keys paired with a value function returns the value at
any present key. -/
theorem lookupD_map_pairs (l : List Int) (g : Int → Nat) (d : Int) (h : d ∈ l) :
    lookupD (l.map (fun x => (x, g x))) d = some (g d) := by
  induction l with
  | nil => cases h
  | cons x xs ih =>
    simp only [List.map_cons, lookupD]
    by_cases hx : x = d
    · subst hx
      simp
    · rw [if_neg hx]
      rcases List.mem_cons.1 h with h1 | h1
      · exact absurd h1.symm hx
      · exact ih h1

/-- Mapping keys paired with values back to their first components returns
the key list. -/
theorem map_fst_pairs (l : List Int) (g : Int → Nat) :
    (l.map (fun x => (x, g x))).map Prod.fst = l := by
  induction l with
  | nil => rfl
  | cons x xs ih => simp [ih]

/-- Keys of a fillDictBasedOnKeyValue output are exactly the iterated
range. -/
theorem seriesDays_fillDict (dictionary : List (Int × Nat)) (tree : List TreeInterval)
    (value : String) :
    seriesDays (fillDictBasedOnKeyValue dictionary tree value) =
      intRange (listMin (dictionary.map Prod.fst)) (listMax (dictionary.map Prod.fst)) := by
  unfold seriesDays fillDictBasedOnKeyValue
  exact map_fst_pairs _ _

/-- Lookup in a fillDictBasedOnKeyValue output at a day of the iterated
range returns the fillValue for that day. -/
theorem lookupD_fillDict (dictionary : List (Int × Nat)) (tree : List TreeInterval)
    (value : String) (d : Int)
    (h : d ∈ intRange (listMin (dictionary.map Prod.fst)) (listMax (dictionary.map Prod.fst))) :
    lookupD (fillDictBasedOnKeyValue dictionary tree value) d =
      some (fillValue dictionary tree value d) := by
  unfold fillDictBasedOnKeyValue
  exact lookupD_map_pairs _ _ _ h

/-- When every state is open or closed, the open-filtered and
closed-filtered counts of a list add up to its length. -/
theorem filter_state_open_closed (l : List TreeInterval)
    (h : ∀ iv ∈ l, iv.data.state = "open" ∨ iv.data.state = "closed") :
    (l.filter (stateIs "open")).length + (l.filter (stateIs "closed")).length = l.length := by
  induction l with
  | nil => simp
  | cons iv l ih =>
    have hmem : ∀ x ∈ l, x.data.state = "open" ∨ x.data.state = "closed" :=
      fun x hx => h x (List.mem_cons_of_mem _ hx)
    have hsum := ih hmem
    rcases h iv (List.mem_cons_self _ _) with ho | hc
    · have e1 : stateIs "open" iv = true := by
        unfold stateIs
        rw [ho]
        decide
      have e2 : stateIs "closed" iv = false := by
        unfold stateIs
        rw [ho]
        decide
      simp [List.filter_cons, e1, e2]
      omega
    · have e1 : stateIs "open" iv = false := by
        unfold stateIs
        rw [hc]
        decide
      have e2 : stateIs "closed" iv = true := by
        unfold stateIs
        rw [hc]
        decide
      simp [List.filter_cons, e1, e2]
      omega

/-- The boundary adjustment in main always fires, so the produced series are
those built from the two-entry seed dict at startDay and tree.end() - 1. -/
theorem mainFromTree_eq (tree : List TreeInterval) :
    mainFromTree tree =
      (fillDictBasedOnKeyValue (baseDictOf tree) tree "open",
       fillDictBasedOnKeyValue (baseDictOf tree) tree "closed",
       issue_spoilage_data tree) := by
  simp [mainFromTree, baseDictOf, treeAt_treeEnd_nil]

/-- Decomposition of a successful run into its three series. -/
theorem mainSeries_ok {records : List IssueRecord} {t : List TreeInterval}
    {o c : List (Int × Nat)} {sp : List SpoilEntry}
    (h1 : createIntervalTree records = Except.ok t)
    (hm : mainSeries records = Except.ok (o, c, sp)) :
    o = fillDictBasedOnKeyValue (baseDictOf t) t "open" ∧
    c = fillDictBasedOnKeyValue (baseDictOf t) t "closed" ∧
    sp = issue_spoilage_data t := by
  have hms : mainSeries records = Except.ok (mainFromTree t) := by
    unfold mainSeries
    rw [h1]
  rw [hms, mainFromTree_eq] at hm
  cases hm
  exact ⟨rfl, rfl, rfl⟩

/-- Keys of the seed dict of main. -/
theorem baseDictOf_keys (tree : List TreeInterval) :
    (baseDictOf tree).map Prod.fst = [treeBegin tree, treeEnd tree - 1] := by
  simp [baseDictOf]

/-- On a nonempty well-formed tree, the reported day window of a main series
is range(treeBegin, treeEnd - 1). -/
theorem seriesDays_main {t : List TreeInterval} (value : String)
    (hwf : ∀ iv ∈ t, iv.ivBegin < iv.ivEnd) (h2 : t ≠ []) :
    seriesDays (fillDictBasedOnKeyValue (baseDictOf t) t value) =
      intRange (treeBegin t) (treeEnd t - 1) := by
  rw [seriesDays_fillDict, baseDictOf_keys]
  have hlt := treeBegin_lt_treeEnd h2 hwf
  have hmin : listMin [treeBegin t, treeEnd t - 1] = treeBegin t := by
    show min (treeBegin t) (treeEnd t - 1) = treeBegin t
    omega
  have hmax : listMax [treeBegin t, treeEnd t - 1] = treeEnd t - 1 := by
    show max (treeBegin t) (treeEnd t - 1) = treeEnd t - 1
    omega
  rw [hmin, hmax]

/-- Evaluation of a main series at a day of the reported window: the seed
day startDay carries the total interval count at that day, every other day
carries the per-state count. -/
theorem fill_main_eval {t : List TreeInterval} (value : String)
    (hwf : ∀ iv ∈ t, iv.ivBegin < iv.ivEnd) (h2 : t ≠ []) {d : Int}
    (hd : d ∈ intRange (treeBegin t) (treeEnd t - 1)) :
    (d = treeBegin t →
      lookupD (fillDictBasedOnKeyValue (baseDictOf t) t value) d =
        some (treeAt t d).length) ∧
    (d ≠ treeBegin t →
      lookupD (fillDictBasedOnKeyValue (baseDictOf t) t value) d =
        some (stateCountAt t value d)) := by
  have hlt := treeBegin_lt_treeEnd h2 hwf
  have hdb := mem_intRange.1 hd
  have hmem : d ∈ intRange (listMin ((baseDictOf t).map Prod.fst))
      (listMax ((baseDictOf t).map Prod.fst)) := by
    rw [baseDictOf_keys]
    have hmin : listMin [treeBegin t, treeEnd t - 1] = treeBegin t := by
      show min (treeBegin t) (treeEnd t - 1) = treeBegin t
      omega
    have hmax : listMax [treeBegin t, treeEnd t - 1] = treeEnd t - 1 := by
      show max (treeBegin t) (treeEnd t - 1) = treeEnd t - 1
      omega
    rw [hmin, hmax]
    exact hd
  have hl := lookupD_fillDict (baseDictOf t) t value d hmem
  constructor
  · intro hds
    rw [hl]
    subst hds
    simp [fillValue, lookupD, baseDictOf]
  · intro hne
    rw [hl]
    have hne1 : treeBegin t ≠ d := fun he => hne he.symm
    have hne2 : treeEnd t - 1 ≠ d := by omega
    simp [fillValue, lookupD, baseDictOf, hne1, hne2]

/-- C3: for every raw record whose begin day equals its end day,
normalization sets the widened flag (endDayOffset = 1) and stores the
interval with end day equal to begin day plus one; for every other accepted
record the flag is unset (endDayOffset = 0) and the bounds are stored
unchanged. -/
theorem c3_widening_flag (issue : IssueRecord) :
    (issue.created_at_day = issue.closed_at_day →
      processRecord issue =
        Except.ok { ivBegin := issue.created_at_day, ivEnd := issue.closed_at_day + 1,
                    data := { issue with endDayOffset := some 1 } }) ∧
    (∀ iv, processRecord issue = Except.ok iv →
      issue.created_at_day ≠ issue.closed_at_day →
      iv = { ivBegin := issue.created_at_day, ivEnd := issue.closed_at_day,
             data := { issue with endDayOffset := some 0 } }) := by
  constructor
  · intro he
    simp only [processRecord]
    rw [if_neg (by omega), if_pos (by omega)]
  · intro iv hok hne
    simp only [processRecord] at hok
    split at hok
    · cases hok
      rfl
    · split at hok
      · cases hok
        omega
      · cases hok

/-- Witness for C3 at one same-day record and one two-day record. -/
theorem c3_witness :
    processRecord { created_at_day := 4, closed_at_day := 4, state := "closed" } =
      Except.ok { ivBegin := 4, ivEnd := 5,
                  data := { created_at_day := 4, closed_at_day := 4, state := "closed",
                            endDayOffset := some 1 } } ∧
    ({ ivBegin := 0, ivEnd := 2,
       data := { created_at_day := 0, closed_at_day := 2, state := "open",
                 endDayOffset := some 0 } } : TreeInterval) =
      { ivBegin := 0, ivEnd := 2,
        data := { created_at_day := 0, closed_at_day := 2, state := "open",
                  endDayOffset := some 0 } } :=
  ⟨(c3_widening_flag { created_at_day := 4, closed_at_day := 4, state := "closed" }).1 rfl,
   (c3_widening_flag { created_at_day := 0, closed_at_day := 2, state := "open" }).2 _ rfl
     (by decide)⟩

/-- C4: after index construction from any input list, every interval stored
in the index satisfies beginDay < endDay (strictly positive width); no
degenerate interval is ever present in the index. -/
theorem c4_nondegenerate_invariant (records : List IssueRecord) (t : List TreeInterval)
    (iv : TreeInterval) (h1 : createIntervalTree records = Except.ok t) (hiv : iv ∈ t) :
    iv.ivBegin < iv.ivEnd :=
  createIntervalTree_wf records t h1 iv hiv

/-- Witness for C4 on a concrete constructed index. -/
theorem c4_witness :
    ({ ivBegin := 0, ivEnd := 2,
       data := { created_at_day := 0, closed_at_day := 2, state := "closed",
                 endDayOffset := some 0 } } : TreeInterval).ivBegin <
      ({ ivBegin := 0, ivEnd := 2,
         data := { created_at_day := 0, closed_at_day := 2, state := "closed",
                   endDayOffset := some 0 } } : TreeInterval).ivEnd :=
  c4_nondegenerate_invariant exTwo
    [{ ivBegin := 0, ivEnd := 2,
       data := { created_at_day := 0, closed_at_day := 2, state := "closed",
                 endDayOffset := some 0 } },
     { ivBegin := 0, ivEnd := 5,
       data := { created_at_day := 0, closed_at_day := 5, state := "open",
                 endDayOffset := some 0 } }]
    _ rfl (by decide)

/-- C5 counterexample: a record closed before creation is not skipped; tree
construction fails with the uncaught ValueError and the run produces no
series at all even though a valid record follows. -/
theorem c5_counterexample :
    createIntervalTree exReversedThenGood = Except.error "ValueError" ∧
    mainSeries exReversedThenGood = Except.error "ValueError" :=
  ⟨rfl, rfl⟩

/-- C5 amended: for every input list containing a record whose closing day
is strictly earlier than its creation day, both insertion attempts for that
record raise ValueError; the second error is uncaught, so index construction
fails for the whole input and no series is produced. -/
theorem c5_reversed_record_fatal (records : List IssueRecord) (r : IssueRecord)
    (hr : r ∈ records) (hlt : r.closed_at_day < r.created_at_day) :
    createIntervalTree records = Except.error "ValueError" := by
  rcases createIntervalTree_error_msg records with ⟨t, ht⟩ | ht
  · obtain ⟨iv, hiv⟩ := createIntervalTree_ok_record records t ht r hr
    rw [processRecord_reversed hlt] at hiv
    cases hiv
  · exact ht

/-- Witness for C5 at a concrete reversed record. -/
theorem c5_witness :
    createIntervalTree exReversed = Except.error "ValueError" :=
  c5_reversed_record_fatal exReversed
    { created_at_day := 5, closed_at_day := 3, state := "closed" } (by decide) (by decide)

/-- C6 counterexample: the empty input does not raise any error; the run
returns degenerate series instead of failing. -/
theorem c6_counterexample :
    mainSeries [] = Except.ok ([(-1, 0)], [(-1, 0)], []) :=
  rfl

/-- C6 amended: on the empty input list no error is raised; tree.begin() and
tree.end() both return 0, the boundary adjustment yields endDay = -1, and
the run returns open and closed series holding the single pair (-1, 0) and
an empty spoilage list. -/
theorem c6_empty_input_amended :
    treeBegin [] = 0 ∧ treeEnd [] = 0 ∧
    mainSeries [] = Except.ok ([(-1, 0)], [(-1, 0)], []) :=
  ⟨rfl, rfl, rfl⟩

/-- C8: evaluation of the spoilage walk on a concrete nonempty index shows
that the first iteration queries overlapping(-1, 0), a negative lower
bound; the special case sits at i = 1, where it coincides with the generic
branch, instead of at i = 0. -/
theorem c8_negative_query_eval :
    spoilageQueries (treeOf exOne) = [(-1, 0), (0, 1), (1, 2), (2, 3), (3, 4)] ∧
    ((-1 : Int), (0 : Int)) ∈ spoilageQueries (treeOf exOne) ∧
    (-1 : Int) < 0 :=
  ⟨rfl, by decide, by decide⟩

/-- C10 counterexample: index construction writes an endDayOffset value into
the record it stores, so the record reachable from the index differs from
the loaded record. -/
theorem c10_counterexample :
    (treeOf exSameDay).map (fun iv => iv.data) =
      [{ created_at_day := 0, closed_at_day := 0, state := "closed", endDayOffset := some 1 }] ∧
    exSameDay =
      [{ created_at_day := 0, closed_at_day := 0, state := "closed", endDayOffset := none }] ∧
    (treeOf exSameDay).map (fun iv => iv.data) ≠ exSameDay :=
  ⟨rfl, rfl, by decide⟩

/-- C10 amended: construction leaves the created day, closed day and state
of every accepted record unchanged but always sets the endDayOffset field
(to 0 on a direct insert and to 1 on a widened insert), so records are not
immutable under index construction. -/
theorem c10_record_mutation_amended (issue : IssueRecord) (iv : TreeInterval)
    (h : processRecord issue = Except.ok iv) :
    iv.data.created_at_day = issue.created_at_day ∧
    iv.data.closed_at_day = issue.closed_at_day ∧
    iv.data.state = issue.state ∧
    (iv.data.endDayOffset = some 0 ∨ iv.data.endDayOffset = some 1) := by
  simp only [processRecord] at h
  split at h
  · cases h
    exact ⟨rfl, rfl, rfl, Or.inl rfl⟩
  · split at h
    · cases h
      exact ⟨rfl, rfl, rfl, Or.inr rfl⟩
    · cases h

/-- Witness for C10 at a concrete widened record. -/
theorem c10_witness :
    ({ ivBegin := 0, ivEnd := 1,
       data := { created_at_day := 0, closed_at_day := 0, state := "closed",
                 endDayOffset := some 1 } } : TreeInterval).data.created_at_day =
      ({ created_at_day := 0, closed_at_day := 0, state := "closed" } :
        IssueRecord).created_at_day ∧
    ({ ivBegin := 0, ivEnd := 1,
       data := { created_at_day := 0, closed_at_day := 0, state := "closed",
                 endDayOffset := some 1 } } : TreeInterval).data.closed_at_day =
      ({ created_at_day := 0, closed_at_day := 0, state := "closed" } :
        IssueRecord).closed_at_day ∧
    ({ ivBegin := 0, ivEnd := 1,
       data := { created_at_day := 0, closed_at_day := 0, state := "closed",
                 endDayOffset := some 1 } } : TreeInterval).data.state =
      ({ created_at_day := 0, closed_at_day := 0, state := "closed" } :
        IssueRecord).state ∧
    (({ ivBegin := 0, ivEnd := 1,
        data := { created_at_day := 0, closed_at_day := 0, state := "closed",
                  endDayOffset := some 1 } } : TreeInterval).data.endDayOffset = some 0 ∨
     ({ ivBegin := 0, ivEnd := 1,
        data := { created_at_day := 0, closed_at_day := 0, state := "closed",
                  endDayOffset := some 1 } } : TreeInterval).data.endDayOffset = some 1) :=
  c10_record_mutation_amended
    { created_at_day := 0, closed_at_day := 0, state := "closed" } _ rfl

/-- Tree built from exTwo, written out. -/
def tTwo : List TreeInterval :=
  [{ ivBegin := 0, ivEnd := 2,
     data := { created_at_day := 0, closed_at_day := 2, state := "closed",
               endDayOffset := some 0 } },
   { ivBegin := 0, ivEnd := 5,
     data := { created_at_day := 0, closed_at_day := 5, state := "open",
               endDayOffset := some 0 } }]

/-- Open series of the run on exTwo, written out. -/
def oTwo : List (Int × Nat) := [(0, 2), (1, 1), (2, 1), (3, 1)]

/-- Closed series of the run on exTwo, written out. -/
def cTwo : List (Int × Nat) := [(0, 2), (1, 1), (2, 0), (3, 0)]

/-- Spoilage list of the run on exTwo, written out. -/
def spTwo : List SpoilEntry :=
  [{ day := 1, number_open := 0, intervals := [] },
   { day := 2, number_open := 2, intervals := [] },
   { day := 3, number_open := 2, intervals := [] },
   { day := 4, number_open := 1, intervals := [] },
   { day := 5, number_open := 1, intervals := [] }]

/-- C1 counterexample: on a single open interval spanning days 0 to 2, the
reported window is the single day 0, where both series carry the seed total
1, so open[0] + closed[0] = 2 while only one interval overlaps day 0. -/
theorem c1_counterexample :
    mainOpen exShort = [(0, 1)] ∧ mainClosed exShort = [(0, 1)] ∧
    lookupD (mainOpen exShort) 0 = some 1 ∧ lookupD (mainClosed exShort) 0 = some 1 ∧
    (treeAt (treeOf exShort) 0).length = 1 ∧ ¬((1 + 1 : Nat) = 1) :=
  ⟨rfl, rfl, rfl, rfl, rfl, by decide⟩

/-- C1 amended: for every day d in the reported window other than the
window start treeBegin, open[d] + closed[d] equals the number of indexed
intervals overlapping day d, provided every state is exactly open or
closed; at d = treeBegin both series carry the seed value, the total number
of intervals at that day, so there the sum is twice the total. -/
theorem c1_open_closed_sum_amended (records : List IssueRecord) (t : List TreeInterval)
    (o c : List (Int × Nat)) (sp : List SpoilEntry)
    (h1 : createIntervalTree records = Except.ok t) (h2 : t ≠ [])
    (hstate : ∀ iv ∈ t, iv.data.state = "open" ∨ iv.data.state = "closed")
    (hm : mainSeries records = Except.ok (o, c, sp)) :
    ∀ d ∈ seriesDays o,
      (d = treeBegin t →
        lookupD o d = some (treeAt t d).length ∧
        lookupD c d = some (treeAt t d).length) ∧
      (d ≠ treeBegin t →
        lookupD o d = some (stateCountAt t "open" d) ∧
        lookupD c d = some (stateCountAt t "closed" d) ∧
        stateCountAt t "open" d + stateCountAt t "closed" d = (treeAt t d).length) := by
  obtain ⟨ho, hc, hsp⟩ := mainSeries_ok h1 hm
  subst ho hc hsp
  have hwf := createIntervalTree_wf records t h1
  intro d hd
  rw [seriesDays_main "open" hwf h2] at hd
  have hopen := fill_main_eval "open" hwf h2 hd
  have hclosed := fill_main_eval "closed" hwf h2 hd
  constructor
  · intro hds
    exact ⟨hopen.1 hds, hclosed.1 hds⟩
  · intro hne
    refine ⟨hopen.2 hne, hclosed.2 hne, ?_⟩
    have hpart := filter_state_open_closed (treeAt t d)
      (fun iv hiv => hstate iv (List.mem_of_mem_filter hiv))
    unfold stateCountAt
    exact hpart

/-- Witness for C1 on exTwo at the seed day 0 and the ordinary day 1. -/
theorem c1_witness :
    (lookupD oTwo 0 = some (treeAt tTwo 0).length ∧
     lookupD cTwo 0 = some (treeAt tTwo 0).length) ∧
    (lookupD oTwo 1 = some (stateCountAt tTwo "open" 1) ∧
     lookupD cTwo 1 = some (stateCountAt tTwo "closed" 1) ∧
     stateCountAt tTwo "open" 1 + stateCountAt tTwo "closed" 1 = (treeAt tTwo 1).length) :=
  ⟨(c1_open_closed_sum_amended exTwo tTwo oTwo cTwo spTwo rfl (by decide) (by decide) rfl
      0 (by decide)).1 rfl,
   (c1_open_closed_sum_amended exTwo tTwo oTwo cTwo spTwo rfl (by decide) (by decide) rfl
      1 (by decide)).2 (by decide)⟩

/-- C7 counterexample: on exTwo the closed series is [(0, 2), (1, 1), (2, 0),
(3, 0)], which strictly decreases from day 0 to day 1, refuting
monotonicity. -/
theorem c7_counterexample :
    mainClosed exTwo = [(0, 2), (1, 1), (2, 0), (3, 0)] ∧
    lookupD (mainClosed exTwo) 0 = some 2 ∧
    lookupD (mainClosed exTwo) 1 = some 1 ∧
    ¬((2 : Nat) ≤ 1) :=
  ⟨rfl, rfl, rfl, by decide⟩

/-- C7 amended: the closed series is not monotone; away from the seed day
treeBegin, closed[d] equals the number of closed-state intervals whose span
contains day d, a quantity that drops back to zero once every closed
interval has ended. -/
theorem c7_closed_series_amended (records : List IssueRecord) (t : List TreeInterval)
    (o c : List (Int × Nat)) (sp : List SpoilEntry)
    (h1 : createIntervalTree records = Except.ok t) (h2 : t ≠ [])
    (hm : mainSeries records = Except.ok (o, c, sp)) :
    ∀ d ∈ seriesDays c, d ≠ treeBegin t →
      lookupD c d = some (stateCountAt t "closed" d) := by
  obtain ⟨ho, hc, hsp⟩ := mainSeries_ok h1 hm
  subst ho hc hsp
  have hwf := createIntervalTree_wf records t h1
  intro d hd hne
  rw [seriesDays_main "closed" hwf h2] at hd
  exact (fill_main_eval "closed" hwf h2 hd).2 hne

/-- Witness for C7 on exTwo at day 1. -/
theorem c7_witness :
    lookupD cTwo 1 = some (stateCountAt tTwo "closed" 1) :=
  c7_closed_series_amended exTwo tTwo oTwo cTwo spTwo rfl (by decide) rfl 1 (by decide)
    (by decide)

/-- C9: the maximum end day of the whole window is included in the reported
day series if and only if at least one interval is still alive exactly at
that day; when no interval is alive there, that boundary day is dropped
from the window rather than reported with a forced zero count.  Under
half-open semantics no interval is ever alive at tree.end(), and that day
is indeed never among the reported days. -/
theorem c9_boundary_day (records : List IssueRecord) (t : List TreeInterval)
    (o c : List (Int × Nat)) (sp : List SpoilEntry)
    (h1 : createIntervalTree records = Except.ok t)
    (hm : mainSeries records = Except.ok (o, c, sp)) :
    (treeEnd t ∈ seriesDays o ↔ treeAt t (treeEnd t) ≠ []) ∧
    treeEnd t ∉ seriesDays o := by
  obtain ⟨ho, hc, hsp⟩ := mainSeries_ok h1 hm
  subst ho hc hsp
  have hwf := createIntervalTree_wf records t h1
  have hnot : treeEnd t ∉ seriesDays (fillDictBasedOnKeyValue (baseDictOf t) t "open") := by
    cases ht : t with
    | nil =>
      subst ht
      decide
    | cons b l =>
      rw [← ht]
      have h2 : t ≠ [] := by
        rw [ht]
        simp
      rw [seriesDays_main "open" hwf h2]
      intro hmem
      have hb := mem_intRange.1 hmem
      omega
  refine ⟨?_, hnot⟩
  constructor
  · intro hmem
    exact absurd hmem hnot
  · intro hne
    exact absurd (treeAt_treeEnd_nil t) hne

/-- Witness for C9 on exTwo. -/
theorem c9_witness :
    (treeEnd tTwo ∈ seriesDays oTwo ↔ treeAt tTwo (treeEnd tTwo) ≠ []) ∧
    treeEnd tTwo ∉ seriesDays oTwo :=
  c9_boundary_day exTwo tTwo oTwo cTwo spTwo rfl rfl

/-- C2 counterexample: on a single open interval spanning days 0 to 5, the
spoilage entry labelled day 1 counts zero intervals although the sole
indexed interval overlaps day 1 and has a multi-day lifetime, and the entry
labelled day 5 counts one interval although no indexed interval overlaps
day 5; so an interval does not count toward the spoilage total on day d iff
it overlaps day d and is multi-day. -/
theorem c2_counterexample :
    spoilAt (issue_spoilage_data (treeOf exOne)) 1 = some 0 ∧
    (treeOf exOne).all (fun iv => containsPoint iv 1 && spoilFilter iv) = true ∧
    treeOf exOne ≠ [] ∧
    spoilAt (issue_spoilage_data (treeOf exOne)) 5 = some 1 ∧
    (treeOf exOne).all (fun iv => !(containsPoint iv 5)) = true := by
  refine ⟨rfl, by decide, by decide, rfl, by decide⟩

/-- C2 amended: the spoilage entry at walk index i (labelled day i + 1)
counts exactly the intervals that overlap the queried range of iteration i,
namely overlap(0, 1) when i = 1 and overlap(i - 1, i) otherwise, and that
satisfy begin differs from end - 1 and endDayOffset differs from 1; in
particular no widened interval is ever counted in any entry. -/
theorem c2_spoilage_predicate_amended (t : List TreeInterval) (i : Nat)
    (h : i < (treeEnd t).toNat) :
    (issue_spoilage_data t)[i]? =
      some { day := (i : Int) + 1,
             number_open :=
               ((treeOverlap t (spoilageQuery (i : Int)).1 (spoilageQuery (i : Int)).2).filter
                   spoilFilter).length,
             intervals := [] } ∧
    ((treeOverlap t (spoilageQuery (i : Int)).1 (spoilageQuery (i : Int)).2).filter
        spoilFilter).all (fun iv => iv.data.endDayOffset ≠ some 1) = true := by
  constructor
  · simp only [issue_spoilage_data]
    rw [List.getElem?_map, List.getElem?_range h]
    by_cases hi : (i : Int) = 1
    · simp [hi, spoilageQuery]
    · have hi2 : i ≠ 1 := by
        intro he
        exact hi (by rw [he]; rfl)
      simp [hi, hi2, spoilageQuery]
  · rw [List.all_eq_true]
    intro iv hiv
    have hsp := List.of_mem_filter hiv
    unfold spoilFilter at hsp
    simp only [Bool.and_eq_true, decide_eq_true_eq] at hsp
    simpa using hsp.2

/-- Witness for C2 at walk index 2 of the run on exOne. -/
theorem c2_witness :
    (2 : Nat) < (treeEnd (treeOf exOne)).toNat ∧
    ((issue_spoilage_data (treeOf exOne))[2]? =
      some { day := ((2 : Nat) : Int) + 1,
             number_open :=
               ((treeOverlap (treeOf exOne) (spoilageQuery ((2 : Nat) : Int)).1
                   (spoilageQuery ((2 : Nat) : Int)).2).filter spoilFilter).length,
             intervals := [] } ∧
     ((treeOverlap (treeOf exOne) (spoilageQuery ((2 : Nat) : Int)).1
         (spoilageQuery ((2 : Nat) : Int)).2).filter spoilFilter).all
        (fun iv => iv.data.endDayOffset ≠ some 1) = true) :=
  ⟨by decide, c2_spoilage_predicate_amended (treeOf exOne) 2 (by decide)⟩
